import Mathlib

/-!
Verification of the IPC method-exposure and binding core of
`electron-ipc-methods` (main-process side, `main_ipc.ts` in the source
pack), against its natural-language specification.

The embedding models:
* the value space that crosses the channel, with the restorable encoding
  of class instances (the Restoration Engine, whose implementation file
  `restorer.ts` is absent from the source pack and is therefore modelled
  from the spec);
* `exposeMainApi` and its per-method channel handler, `RelayedError`,
  the error logger, and the discovery listeners of `_installIpcListeners`;
* `bindWindowApi` / `_attemptBindWindowApi` as a small event machine over
  the process-wide mutable maps, with `retryUntilTimeout` (declared but not
  implemented in the source pack) modelled from the spec.
-/

namespace IpcMethods

/-- Values that cross the IPC channel: primitives (opaque), strings,
arrays, plain objects (ordered field lists, mirroring JS object property
order), and class instances carrying a class name and data fields. -/
inductive Value where
  | prim : Nat → Value
  | str : String → Value
  | arr : List Value → Value
  | obj : List (String × Value) → Value
  | inst : String → List (String × Value) → Value

/-- A restorer function as supplied by the user: given a class name and
the structural fields, optionally reconstructs a live instance.
`none` models "classLookup returns nothing": the tagged node is left as a
plain structural object. -/
def RestorerFn : Type := String → List (String × Value) → Option Value

/-- The marker key of the restorable encoding.
Modelled from the spec: `{ __isRestorable: true, className: <name>, fields... }`. -/
def restorableKey : String := "__isRestorable"

/-- The class-name key of the restorable encoding. -/
def classNameKey : String := "className"

mutual

/-- Modelled from the spec: `Restorer.makeRestorable` (file `restorer.ts`
is missing from the source pack). Recursively walks a value and tags
class instances with their class name, producing the restorable
encoding `{ __isRestorable: true, className: <name>, fields... }`;
plain values pass through with their children encoded. -/
def makeRestorable : Value → Value
  | .prim n => .prim n
  | .str s => .str s
  | .arr vs => .arr (makeRestorableList vs)
  | .obj fs => .obj (makeRestorableFields fs)
  | .inst cn fs =>
      .obj ((restorableKey, .prim 1) :: (classNameKey, .str cn) ::
        makeRestorableFields fs)

/-- Element-wise encoding of an array's members. -/
def makeRestorableList : List Value → List Value
  | [] => []
  | v :: vs => makeRestorable v :: makeRestorableList vs

/-- Field-wise encoding of an object's properties. -/
def makeRestorableFields : List (String × Value) → List (String × Value)
  | [] => []
  | (k, v) :: fs => (k, makeRestorable v) :: makeRestorableFields fs

end

mutual

/-- Modelled from the spec: `Restorer.restoreValue` (file `restorer.ts`
is missing from the source pack). Recursively walks an encoded value; at
every tagged node it restores the fields and then calls the restorer
with `(className, structuralFields)`, substituting its result, or leaves
a plain structural object when the restorer yields nothing or is
absent. -/
def restoreValue (r : RestorerFn) : Value → Value
  | .prim n => .prim n
  | .str s => .str s
  | .arr vs => .arr (restoreValueList r vs)
  | .obj fs =>
      let fs2 := restoreValueFields r fs
      match fs2 with
      | (k1, .prim 1) :: (k2, .str cn) :: rest =>
          if k1 = restorableKey ∧ k2 = classNameKey then
            match r cn rest with
            | some v => v
            | none => .obj rest
          else .obj fs2
      | _ => .obj fs2
  | .inst cn fs => .inst cn (restoreValueFields r fs)

/-- Element-wise restoration of an array's members. -/
def restoreValueList (r : RestorerFn) : List Value → List Value
  | [] => []
  | v :: vs => restoreValue r v :: restoreValueList r vs

/-- Field-wise restoration of an object's properties. -/
def restoreValueFields (r : RestorerFn) : List (String × Value) → List (String × Value)
  | [] => []
  | (k, v) :: fs => (k, restoreValue r v) :: restoreValueFields r fs

end

/-- A restorer that knows every class: reconstructs the instance from its
class name and restored fields (as a user's complete restoration map
would). -/
def canonicalRestorer : RestorerFn := fun cn fs => some (.inst cn fs)

/-- Outcome of awaiting an exposed method's promise: a resolved value, a
thrown `RelayedError` wrapping a payload, or a plain thrown error. -/
inductive MethodOutcome where
  | ok : Value → MethodOutcome
  | throwRelayed : Value → MethodOutcome
  | throwPlain : Value → MethodOutcome

/-- Outcome of an `ipcMain.handle` handler: a successful channel reply
carrying a value, or a re-thrown error (a transport-level call failure
observable by the remote caller). -/
inductive HandlerOutcome where
  | reply : Value → HandlerOutcome
  | thrown : Value → HandlerOutcome

/-- The distinguished class name tagging an encoded thrown error.
Modelled from the spec: a distinguished tag marks an encoded thrown
error so the receiving side re-raises rather than returns it. -/
def returnedErrorClass : String := "__ReturnedError"

/-- Modelled from the spec: `Restorer.makeReturnedError` (file
`restorer.ts` is missing from the source pack). Wraps the encoded
payload of a `RelayedError` in the distinguished error envelope that the
receiving side recognizes and re-raises. -/
def makeReturnedError (errorToRelay : Value) : Value :=
  .obj [(returnedErrorClass, makeRestorable errorToRelay)]

/-- Whether a channel reply is the distinguished error envelope. -/
def isReturnedError : Value → Bool
  | .obj [(k, _)] => k = returnedErrorClass
  | _ => false

/-- Modelled from the spec: the caller-side decoding of a call reply
(the renderer implementation is absent from the source pack). A reply
tagged as a relayed error is re-raised (`Except.error`) with the
restored payload; any other reply is returned restored. -/
def decodeReply (r : RestorerFn) (reply : Value) : Except Value Value :=
  match reply with
  | .obj [(k, payload)] =>
      if k = returnedErrorClass then .error (restoreValue r payload)
      else .ok (restoreValue r (.obj [(k, payload)]))
  | v => .ok (restoreValue r v)

/-- The argument-restoration loop of the handler installed by
`exposeMainApi` (source lines 228-231): each incoming argument is
replaced by `Restorer.restoreValue(args[i], restorer)`. -/
def restoreArgs (r : RestorerFn) : List Value → List Value
  | [] => []
  | a :: rest => restoreValue r a :: restoreArgs r rest

/-- The handler `exposeMainApi` installs for one method (source lines
226-245): restore the arguments, invoke the bound method, await it, and
return the restorable-encoded result; on a thrown `RelayedError` return
the encoded payload in the error envelope as a successful reply; on any
other thrown value, pass it to the error logger when one is registered
and re-throw it. The second component is the list of values received by
the error logger during the call. -/
def mainApiHandler (r : RestorerFn) (loggerRegistered : Bool)
    (method : List Value → MethodOutcome) (args : List Value) :
    HandlerOutcome × List Value :=
  match method (restoreArgs r args) with
  | .ok v => (.reply (makeRestorable v), [])
  | .throwRelayed p => (.reply (makeReturnedError p), [])
  | .throwPlain e => (.thrown e, if loggerRegistered then [e] else [])

/-- Modelled from the spec: `toIpcName` (implemented in `shared_ipc.ts`,
which is missing from the source pack; only its declaration appears): a
pure, deterministic, collision-free mapping from a class name and a
method name to the per-method channel name. -/
def toIpcName (apiClassName methodName : String) : String :=
  apiClassName ++ ":" ++ methodName

/-- A property of an API instance as seen by the exposure loop: either a
function (with its behavior on restored arguments) or a non-function
value. -/
inductive ApiProperty where
  | method : (List Value → MethodOutcome) → ApiProperty
  | dataProp : Value → ApiProperty

/-- `typeof method == "function"` (source line 223). -/
def ApiProperty.isFunction : ApiProperty → Bool
  | .method _ => true
  | .dataProp _ => false

/-- `["_", "#"].includes(methodName[0])` (source line 221): the name's
first character is the reserved private-name marker `_` or `#` (an
empty name has no first character and is not private). -/
def isPrivateName (name : String) : Bool :=
  match name.data with
  | [] => false
  | c :: _ => c = '_' || c = '#'

/-- An API instance as enumerated at exposure time: its class name and
the (name, value) pairs returned by `getPropertyNames` together with
each property's value. In JS this enumeration walks the prototype chain
and so includes an entry named `"constructor"` holding the class
constructor function. -/
structure ApiInstance where
  className : String
  props : List (String × ApiProperty)

/-- The method-registration loop of `exposeMainApi` (source lines
219-250): collects, in enumeration order, every property name that is
not `"constructor"`, does not start with `_` or `#`, and whose value is
a function. A channel handler is installed for exactly these names. -/
def registerMethods : List (String × ApiProperty) → List String
  | [] => []
  | e :: rest =>
      if e.1 ≠ "constructor" ∧ isPrivateName e.1 = false ∧ e.2.isFunction then
        e.1 :: registerMethods rest
      else registerMethods rest

/-- Association lookup mirroring a JS object used as a string-keyed map. -/
def lookupA {α : Type} : List (String × α) → String → Option α
  | [], _ => none
  | (k, v) :: rest, key => if k = key then some v else lookupA rest key

/-- Main-process exposure state: `_mainApiMap` (the ApiRegistrationMap),
the set of channel names with an installed `ipcMain.handle` handler, and
`_listeningForIPC`. -/
structure ExposeState where
  mainApiMap : List (String × List String)
  handlers : List String
  listening : Bool

/-- `_installIpcListeners` (source lines 350-370): installs the two
discovery listeners once per process, guarded by `_listeningForIPC`. -/
def installIpcListeners (s : ExposeState) : ExposeState :=
  if s.listening then s else { s with listening := true }

/-- `exposeMainApi` (source lines 209-252), state effect: installs the
discovery listeners, returns unchanged if the class name is already in
`_mainApiMap` (any present entry is truthy in JS, including an empty
method list), and otherwise registers the public function-valued
properties and installs one channel handler per registered method. The
per-method handler behavior is `mainApiHandler`. -/
def exposeMainApi (s : ExposeState) (api : ApiInstance) : ExposeState :=
  let s1 := installIpcListeners s
  if (lookupA s1.mainApiMap api.className).isSome then s1
  else
    let methodNames := registerMethods api.props
    { s1 with
        mainApiMap := s1.mainApiMap ++ [(api.className, methodNames)]
        handlers := s1.handlers ++ methodNames.map (fun m => toIpcName api.className m) }

/-- The discovery-reply message sent on `API_RESPONSE_IPC`. Its
`methodNames` field is `none` when the map holds no entry for the class
(the JS message then carries `undefined`). -/
structure ApiRegistration where
  className : String
  methodNames : Option (List String)
deriving DecidableEq, Repr

/-- The `API_REQUEST_IPC` discovery listener (source lines 353-359):
builds a registration from the requested class name and the current
`_mainApiMap` entry and sends it back on `API_RESPONSE_IPC`,
unconditionally. The result is the list of messages sent. -/
def handleApiRequest (mainApiMap : List (String × List String))
    (apiClassName : String) : List ApiRegistration :=
  [{ className := apiClassName, methodNames := lookupA mainApiMap apiClassName }]

/-- A bound window-API proxy object. `pid` models JS object identity:
each construction by `_attemptBindWindowApi` yields a fresh one, so two
proxies with different `pid`s are distinct objects. -/
structure ApiBinding where
  pid : Nat
  methodNames : List String
deriving DecidableEq, Repr

/-- Binding-side state for one fixed (window, className) pair:
`reg` is the `_windowApiMapByWebContentsID` entry (`none` when the entry
is absent or holds `undefined`, which the code treats identically),
`bound` is the `_boundWindowApisByWindowID` entry, `nextPid` the supply
of fresh proxy identities, `requestsSent` the number of discovery
requests sent on `API_REQUEST_IPC` for the pair, and `resolutions` the
(bind-call id, proxy) pairs in the order the bind promises resolved. -/
structure BindState where
  reg : Option (List String)
  bound : Option ApiBinding
  nextPid : Nat
  requestsSent : Nat
  resolutions : List (Nat × ApiBinding)
deriving DecidableEq, Repr

/-- `_attemptBindWindowApi` (source lines 310-344): when no registration
is known for the pair, sends a discovery request and reports failure;
when one is known, builds a fresh proxy object with the registered
method names, stores it in the bound-API table (overwriting any previous
entry), resolves the calling bind promise with it, and reports
success. It never consults the bound-API table before building. -/
def attemptBindWindowApi (callId : Nat) (s : BindState) : BindState × Bool :=
  match s.reg with
  | none => ({ s with requestsSent := s.requestsSent + 1 }, false)
  | some methodNames =>
      let boundApi : ApiBinding := { pid := s.nextPid, methodNames := methodNames }
      ({ s with
          bound := some boundApi
          nextPid := s.nextPid + 1
          resolutions := s.resolutions ++ [(callId, boundApi)] }, true)

/-- The synchronous body of `bindWindowApi` (source lines 286-307): if a
proxy for the pair is cached, resolve immediately with it; otherwise run
the first discovery attempt and start the retry loop. The Boolean
reports whether the discovery/retry path was entered. -/
def bindWindowApiCall (s : BindState) (callId : Nat) : BindState × Bool :=
  match s.bound with
  | some boundApi =>
      ({ s with resolutions := s.resolutions ++ [(callId, boundApi)] }, false)
  | none => ((attemptBindWindowApi callId s).1, true)

/-- Events that drive the binding state for one (window, className)
pair: a `bindWindowApi` call, a later attempt fired by that call's
retry loop, and the arrival of an `API_RESPONSE_IPC` message for the
class (whose method list is `undefined`, i.e. `none`, when the other
side never exposed the class; the response listener of source lines
360-367 stores it as received). -/
inductive BindEvent where
  | start : Nat → BindEvent
  | retry : Nat → BindEvent
  | regArrives : Option (List String) → BindEvent

/-- One step of the binding machine. -/
def bindStep (s : BindState) : BindEvent → BindState
  | .start callId => (bindWindowApiCall s callId).1
  | .retry callId => (attemptBindWindowApi callId s).1
  | .regArrives methodNames => { s with reg := methodNames }

/-- The empty binding state of a fresh process. -/
def initialBindState : BindState :=
  { reg := none, bound := none, nextPid := 0, requestsSent := 0, resolutions := [] }

/-- Run a schedule of binding events from the fresh state. -/
def runBind (events : List BindEvent) : BindState :=
  events.foldl bindStep initialBindState

/-- Outcome of a retry loop: the attempt succeeded at some elapsed time,
the loop rejected with its timeout message at some elapsed time, or the
modelling fuel ran out. -/
inductive RetryOutcome where
  | resolved : Nat → RetryOutcome
  | rejected : Nat → String → RetryOutcome
  | outOfFuel : RetryOutcome
deriving DecidableEq, Repr

/-- Modelled from the spec: `retryUntilTimeout` (implemented in
`shared_ipc.ts`, which is missing from the source pack; only its
declaration appears). The attempt runs immediately; on failure the loop
rejects with the timeout message once the elapsed time has reached the
configured timeout, and otherwise reschedules itself one retry interval
later. `fuel` bounds the recursion depth of the model only. -/
def retryUntilTimeout (fuel elapsed timeoutMillis retryMillis : Nat)
    (attempt : Nat → Bool) (timeoutMessage : String) : RetryOutcome :=
  match fuel with
  | 0 => .outOfFuel
  | fuel + 1 =>
      if attempt elapsed then .resolved elapsed
      else if timeoutMillis ≤ elapsed then .rejected elapsed timeoutMessage
      else retryUntilTimeout fuel (elapsed + retryMillis) timeoutMillis retryMillis
        attempt timeoutMessage

/-- The timeout message `bindWindowApi` passes to `retryUntilTimeout`
(source lines 302-303). -/
def bindTimeoutMessage (apiClassName : String) (windowID : Nat) : String :=
  "Main timed out waiting to bind to window API '" ++ apiClassName ++
    "' (window ID " ++ toString windowID ++ ")"

/-- The argument loop of a send-style proxy method (source lines
325-329): `Restorer.makeRestorable` mutates each argument in place, so
the loop's effect on the argument array is embedded as an element-wise
encoding. -/
def makeArgsRestorable : List Value → List Value
  | [] => []
  | a :: rest => makeRestorable a :: makeArgsRestorable rest

/-- A proxy method of a send-style (one-way window) binding (source
lines 324-334): encodes the arguments in place, then fires exactly one
fire-and-forget `webContents.send` on the channel name derived from the
class and method names, returning no value. The result is the list of
(channel, payload) messages sent. -/
def windowProxyMethodCall (apiClassName methodName : String)
    (args : List Value) : List (String × List Value) :=
  let args2 := makeArgsRestorable args
  [(toIpcName apiClassName methodName, args2)]

/-! ### Helper lemmas -/

theorem restoreArgs_eq_map (r : RestorerFn) (args : List Value) :
    restoreArgs r args = args.map (restoreValue r) := by
  induction args with
  | nil => rfl
  | cons a rest ih => simp [restoreArgs, ih]

theorem makeArgsRestorable_eq_map (args : List Value) :
    makeArgsRestorable args = args.map makeRestorable := by
  induction args with
  | nil => rfl
  | cons a rest ih => simp [makeArgsRestorable, ih]

theorem lookupA_append_right {α : Type} (l : List (String × α)) (k : String)
    (v : α) (h : lookupA l k = none) : lookupA (l ++ [(k, v)]) k = some v := by
  induction l with
  | nil => simp [lookupA]
  | cons e rest ih =>
      rw [lookupA] at h
      by_cases he : e.1 = k
      · simp [he] at h
      · cases e
        rw [List.cons_append, lookupA]
        simp only [he, if_false] at h ⊢
        exact ih h

theorem installIpcListeners_mainApiMap (s : ExposeState) :
    (installIpcListeners s).mainApiMap = s.mainApiMap := by
  rw [installIpcListeners]; split <;> rfl

theorem installIpcListeners_handlers (s : ExposeState) :
    (installIpcListeners s).handlers = s.handlers := by
  rw [installIpcListeners]; split <;> rfl

theorem installIpcListeners_listening (s : ExposeState) :
    (installIpcListeners s).listening = true := by
  rw [installIpcListeners]; split
  · assumption
  · rfl

theorem exposeMainApi_listening (s : ExposeState) (api : ApiInstance) :
    (exposeMainApi s api).listening = true := by
  rw [exposeMainApi]
  split
  · exact installIpcListeners_listening s
  · exact installIpcListeners_listening s

theorem exposeMainApi_lookup_isSome (s : ExposeState) (api : ApiInstance) :
    (lookupA (exposeMainApi s api).mainApiMap api.className).isSome = true := by
  rw [exposeMainApi]
  split
  · next h => exact h
  · next h =>
      simp only [installIpcListeners_mainApiMap] at h ⊢
      rw [lookupA_append_right _ _ _ (Option.not_isSome_iff_eq_none.mp (by simpa using h))]
      rfl

theorem exposeMainApi_of_present (s : ExposeState) (api : ApiInstance)
    (h1 : s.listening = true)
    (h2 : (lookupA s.mainApiMap api.className).isSome = true) :
    exposeMainApi s api = s := by
  have hinst : installIpcListeners s = s := by rw [installIpcListeners, if_pos h1]
  rw [exposeMainApi, hinst, if_pos h2]

/-- The fresh-exposure shape of the state: discovery listeners on, the
new registration appended, and one channel handler per registered
method name appended. -/
theorem exposeMainApi_of_new (s : ExposeState) (api : ApiInstance)
    (h : lookupA s.mainApiMap api.className = none) :
    exposeMainApi s api =
      { mainApiMap := s.mainApiMap ++ [(api.className, registerMethods api.props)]
        handlers := s.handlers ++
          (registerMethods api.props).map (fun m => toIpcName api.className m)
        listening := true } := by
  rw [exposeMainApi]
  split
  · next hs =>
      rw [installIpcListeners_mainApiMap, h] at hs
      simp at hs
  · next hs =>
      cases s with
      | mk m hl li =>
          rw [installIpcListeners]
          dsimp only
          split
          · next hli => simp_all
          · next hli => simp_all

theorem registerMethods_mem_of_prop {props : List (String × ApiProperty)}
    {name : String} {f : List Value → MethodOutcome}
    (hmem : (name, ApiProperty.method f) ∈ props)
    (hpub : isPrivateName name = false) (hctor : name ≠ "constructor") :
    name ∈ registerMethods props := by
  induction props with
  | nil => cases hmem
  | cons e rest ih =>
      rw [registerMethods]
      rcases List.mem_cons.mp hmem with he | hrest
      · cases he
        rw [if_pos ⟨hctor, hpub, rfl⟩]
        exact List.mem_cons_self _ _
      · split
        · exact List.mem_cons_of_mem _ (ih hrest)
        · exact ih hrest

theorem registerMethods_sound {props : List (String × ApiProperty)}
    {name : String} (h : name ∈ registerMethods props) :
    ∃ p : ApiProperty, (name, p) ∈ props ∧ p.isFunction = true ∧
      isPrivateName name = false ∧ name ≠ "constructor" := by
  induction props with
  | nil => rw [registerMethods] at h; cases h
  | cons e rest ih =>
      rw [registerMethods] at h
      split at h
      · next hcond =>
          rcases List.mem_cons.mp h with he | hrest
          · exact ⟨e.2, by rw [he]; exact List.mem_cons_self _ _,
              hcond.2.2, by rw [he]; exact hcond.2.1, by rw [he]; exact hcond.1⟩
          · obtain ⟨p, hp, hrest2⟩ := ih hrest
            exact ⟨p, List.mem_cons_of_mem _ hp, hrest2⟩
      · obtain ⟨p, hp, hrest2⟩ := ih h
        exact ⟨p, List.mem_cons_of_mem _ hp, hrest2⟩

theorem registerMethods_not_private {props : List (String × ApiProperty)}
    {name : String} (hpriv : isPrivateName name = true) :
    name ∉ registerMethods props := by
  intro h
  obtain ⟨_, _, _, hpub, _⟩ := registerMethods_sound h
  rw [hpriv] at hpub
  cases hpub

theorem toIpcName_inj_right {cn m1 m2 : String}
    (h : toIpcName cn m1 = toIpcName cn m2) : m1 = m2 := by
  rw [toIpcName, toIpcName] at h
  have hd : cn.data ++ (':' :: m1.data) = cn.data ++ (':' :: m2.data) := by
    have h2 := congrArg String.data h
    simpa [String.data_append] using h2
  have h3 := List.append_cancel_left hd
  injection h3 with _ h4
  exact String.ext h4

theorem toIpcName_not_mem_map {cn name : String} {l : List String}
    (h : name ∉ l) : toIpcName cn name ∉ l.map (fun m => toIpcName cn m) := by
  intro hmem
  obtain ⟨m, hm, heq⟩ := List.mem_map.mp hmem
  exact h (toIpcName_inj_right heq.symm ▸ hm)

/-! ### Claim theorems -/

/-- C4: Exposing an API of the same class name a second time in the same
process is a no-op after the first call: the entire exposure state — the
ApiRegistrationMap, the set of installed channel handlers, and the
discovery-listener flag — equals the state after the first call, so no
handler is installed a second time, no method name is re-registered, and
the registration entry for the class is unchanged. -/
theorem exposeMainApi_second_noop (s : ExposeState) (api api2 : ApiInstance)
    (h : api2.className = api.className) :
    exposeMainApi (exposeMainApi s api) api2 = exposeMainApi s api :=
  exposeMainApi_of_present _ _ (exposeMainApi_listening s api)
    (h ▸ exposeMainApi_lookup_isSome s api)

/-- Witness for C4 at a concrete state and instance. -/
theorem exposeMainApi_second_noop_witness :
    exposeMainApi
        (exposeMainApi ⟨[], [], false⟩
          ⟨"Greeter", [("hello", .method (fun _ => .ok (.str "Hi")))]⟩)
        ⟨"Greeter", [("hello", .method (fun _ => .ok (.str "Hi")))]⟩ =
      exposeMainApi ⟨[], [], false⟩
        ⟨"Greeter", [("hello", .method (fun _ => .ok (.str "Hi")))]⟩ :=
  exposeMainApi_second_noop _ _ _ rfl

/-- C7: A bind call whose (window, className) pair already has an entry
in the bound-API table resolves immediately with the cached proxy
object: the only state change is the recorded resolution carrying
exactly the cached proxy, no discovery request is sent, and the
retry loop is not started. -/
theorem bindWindowApi_cache_hit (s : BindState) (callId : Nat)
    (p : ApiBinding) (h : s.bound = some p) :
    bindWindowApiCall s callId =
      ({ s with resolutions := s.resolutions ++ [(callId, p)] }, false) := by
  rw [bindWindowApiCall, h]

/-- Witness for C7 at a concrete cached state. -/
theorem bindWindowApi_cache_hit_witness :
    bindWindowApiCall ⟨none, some ⟨5, ["hello"]⟩, 6, 1, []⟩ 2 =
      (⟨none, some ⟨5, ["hello"]⟩, 6, 1, [(2, ⟨5, ["hello"]⟩)]⟩, false) :=
  bindWindowApi_cache_hit _ 2 _ rfl

/-- C9: A proxy method of a send-style (one-way window) binding encodes
every argument through the Restoration Engine and fires exactly one
fire-and-forget message, on the channel name derived from the class and
method names, carrying the encoded arguments; it produces no reply and
no result. -/
theorem windowProxyMethodCall_sends_one (apiClassName methodName : String)
    (args : List Value) :
    windowProxyMethodCall apiClassName methodName args =
      [(toIpcName apiClassName methodName, args.map makeRestorable)] ∧
    (windowProxyMethodCall apiClassName methodName args).length = 1 := by
  constructor
  · rw [windowProxyMethodCall, makeArgsRestorable_eq_map]
  · rfl

/-- C10: The registered method-name list contains only names of
function-valued public properties: every registered name belongs to a
function-valued property that is neither private-marked nor named
`"constructor"`; the name `"constructor"` itself is never registered;
and a name that is not registered gets no channel handler among the
handlers installed for the class. -/
theorem registerMethods_only_public_functions
    (props : List (String × ApiProperty)) :
    (∀ name, name ∈ registerMethods props →
      ∃ p : ApiProperty, (name, p) ∈ props ∧ p.isFunction = true ∧
        isPrivateName name = false ∧ name ≠ "constructor") ∧
    "constructor" ∉ registerMethods props ∧
    (∀ cn name : String, name ∉ registerMethods props →
      toIpcName cn name ∉
        (registerMethods props).map (fun m => toIpcName cn m)) := by
  refine ⟨fun name h => registerMethods_sound h, ?_, fun cn name h => toIpcName_not_mem_map h⟩
  intro h
  obtain ⟨_, _, _, _, hctor⟩ := registerMethods_sound h
  exact hctor rfl

/-- Witness for C10 at a concrete property list containing a private
method, a data property, and a `"constructor"` entry. -/
theorem registerMethods_only_public_functions_witness :
    (∃ p : ApiProperty,
      ("hello", p) ∈ [("constructor", ApiProperty.method (fun _ => .ok (.prim 0))),
        ("hello", ApiProperty.method (fun _ => .ok (.str "Hi"))),
        ("_count", ApiProperty.dataProp (.prim 3))] ∧ p.isFunction = true ∧
        isPrivateName "hello" = false ∧ "hello" ≠ "constructor") ∧
    "constructor" ∉ registerMethods
      [("constructor", ApiProperty.method (fun _ => .ok (.prim 0))),
        ("hello", ApiProperty.method (fun _ => .ok (.str "Hi"))),
        ("_count", ApiProperty.dataProp (.prim 3))] ∧
    toIpcName "Greeter" "_count" ∉
      (registerMethods
        [("constructor", ApiProperty.method (fun _ => .ok (.prim 0))),
          ("hello", ApiProperty.method (fun _ => .ok (.str "Hi"))),
          ("_count", ApiProperty.dataProp (.prim 3))]).map
        (fun m => toIpcName "Greeter" m) := by
  refine ⟨?_, ?_, ?_⟩
  · exact (registerMethods_only_public_functions _).1 "hello"
      (by rw [registerMethods, registerMethods, registerMethods, registerMethods]
          simp [isPrivateName, ApiProperty.isFunction])
  · exact (registerMethods_only_public_functions _).2.1
  · exact (registerMethods_only_public_functions _).2.2 "Greeter" "_count"
      (registerMethods_not_private (by rfl))

/-- C8: When an API instance is exposed (class not previously
registered), the handlers installed are exactly one channel handler per
registered method; every own property whose name starts with the
private-name marker is excluded from the registered names and gets no
channel handler; and every other function-valued own method — the class
constructor enumerated under the reserved name `"constructor"` is not an
API method — is registered and so becomes callable. -/
theorem exposeMainApi_private_excluded (s : ExposeState) (api : ApiInstance)
    (hnew : lookupA s.mainApiMap api.className = none) :
    (exposeMainApi s api).handlers = s.handlers ++
      (registerMethods api.props).map (fun m => toIpcName api.className m) ∧
    (∀ name, isPrivateName name = true →
      name ∉ registerMethods api.props ∧
      toIpcName api.className name ∉
        (registerMethods api.props).map (fun m => toIpcName api.className m)) ∧
    (∀ name (f : List Value → MethodOutcome),
      (name, ApiProperty.method f) ∈ api.props →
      isPrivateName name = false → name ≠ "constructor" →
      name ∈ registerMethods api.props ∧
      toIpcName api.className name ∈ (exposeMainApi s api).handlers) := by
  have hshape := exposeMainApi_of_new s api hnew
  refine ⟨by rw [hshape], ?_, ?_⟩
  · intro name hpriv
    have hnot : name ∉ registerMethods api.props :=
      registerMethods_not_private hpriv
    exact ⟨hnot, toIpcName_not_mem_map hnot⟩
  · intro name f hmem hpub hctor
    have hreg := registerMethods_mem_of_prop hmem hpub hctor
    refine ⟨hreg, ?_⟩
    rw [hshape]
    exact List.mem_append_right _ (List.mem_map.mpr ⟨name, hreg, rfl⟩)

/-- Witness for C8 at a concrete instance with a private method, a
public method and a constructor entry. -/
theorem exposeMainApi_private_excluded_witness :
    ("_helper" ∉ registerMethods
      [("hello", ApiProperty.method (fun _ => .ok (.str "Hi"))),
        ("_helper", ApiProperty.method (fun _ => .ok (.prim 0)))]) ∧
    "hello" ∈ registerMethods
      [("hello", ApiProperty.method (fun _ => .ok (.str "Hi"))),
        ("_helper", ApiProperty.method (fun _ => .ok (.prim 0)))] ∧
    toIpcName "Greeter" "hello" ∈
      (exposeMainApi ⟨[], [], false⟩
        ⟨"Greeter", [("hello", ApiProperty.method (fun _ => .ok (.str "Hi"))),
          ("_helper", ApiProperty.method (fun _ => .ok (.prim 0)))]⟩).handlers := by
  have h := exposeMainApi_private_excluded ⟨[], [], false⟩
    ⟨"Greeter", [("hello", ApiProperty.method (fun _ => .ok (.str "Hi"))),
      ("_helper", ApiProperty.method (fun _ => .ok (.prim 0)))]⟩ rfl
  have hpub := h.2.2 "hello" (fun _ => .ok (.str "Hi"))
    (List.mem_cons_self _ _) rfl (by decide)
  exact ⟨(h.2.1 "_helper" rfl).1, hpub.1, hpub.2⟩

/-- C5: The discovery listener always sends exactly one reply naming the
requested class: if the class was previously exposed, the reply is the
matching ApiRegistration pairing the class name with its registered
method names; if the class was never exposed, the reply carries no
method-name registration (`none`, the JS `undefined`), which the
requesting side stores as an absent registration, so its next bind
attempt fails and sends another discovery request — it keeps retrying
until its timeout. -/
theorem discovery_request_reply (s : ExposeState) (api : ApiInstance)
    (hnew : lookupA s.mainApiMap api.className = none) :
    handleApiRequest (exposeMainApi s api).mainApiMap api.className =
      [⟨api.className, some (registerMethods api.props)⟩] ∧
    (∀ cn, lookupA (exposeMainApi s api).mainApiMap cn = none →
      handleApiRequest (exposeMainApi s api).mainApiMap cn = [⟨cn, none⟩] ∧
      ∀ (bs : BindState) (callId : Nat),
        attemptBindWindowApi callId (bindStep bs (.regArrives none)) =
          ({ bs with reg := none, requestsSent := bs.requestsSent + 1 }, false)) := by
  have hshape := exposeMainApi_of_new s api hnew
  constructor
  · rw [hshape, handleApiRequest]
    dsimp only
    rw [lookupA_append_right _ _ _ hnew]
  · intro cn hcn
    refine ⟨by rw [handleApiRequest, hcn], ?_⟩
    intro bs callId
    rw [bindStep, attemptBindWindowApi]

/-- Witness for C5: a fresh exposure of `Greeter`, then a request for
`Greeter` and a request for the never-exposed `Missing`. -/
theorem discovery_request_reply_witness :
    handleApiRequest
      (exposeMainApi ⟨[], [], false⟩
        ⟨"Greeter", [("hello", ApiProperty.method (fun _ => .ok (.str "Hi")))]⟩).mainApiMap
      "Greeter" = [⟨"Greeter", some ["hello"]⟩] ∧
    handleApiRequest
      (exposeMainApi ⟨[], [], false⟩
        ⟨"Greeter", [("hello", ApiProperty.method (fun _ => .ok (.str "Hi")))]⟩).mainApiMap
      "Missing" = [⟨"Missing", none⟩] ∧
    attemptBindWindowApi 1 (bindStep initialBindState (.regArrives none)) =
      ({ initialBindState with requestsSent := 1 }, false) := by
  have h := discovery_request_reply ⟨[], [], false⟩
    ⟨"Greeter", [("hello", ApiProperty.method (fun _ => .ok (.str "Hi")))]⟩ rfl
  have h2 := h.2 "Missing" rfl
  refine ⟨?_, h2.1, ?_⟩
  · have h1 := h.1
    rw [show registerMethods
        [("hello", ApiProperty.method (fun _ => .ok (.str "Hi")))] = ["hello"] from rfl] at h1
    exact h1
  · have h3 := h2.2 initialBindState 1
    exact h3

/-- C6: For a public method of an exposed API (so a channel handler is
installed for it) and an incoming call message, the handler decodes each
incoming argument through the Restoration Engine with the supplied
restorer (the decode loop equals an element-wise `restoreValue`),
invokes the bound method on the decoded arguments, and when the awaited
result is not an error returns it encoded through the Restoration
Engine as the channel reply, logging nothing. -/
theorem exposeMainApi_handler_success (s : ExposeState) (api : ApiInstance)
    (r : RestorerFn) (lg : Bool) (name : String)
    (f : List Value → MethodOutcome) (args : List Value) (v : Value)
    (hmem : (name, ApiProperty.method f) ∈ api.props)
    (hpub : isPrivateName name = false) (hctor : name ≠ "constructor")
    (hnew : lookupA s.mainApiMap api.className = none)
    (hok : f (args.map (restoreValue r)) = .ok v) :
    toIpcName api.className name ∈ (exposeMainApi s api).handlers ∧
    restoreArgs r args = args.map (restoreValue r) ∧
    mainApiHandler r lg f args = (.reply (makeRestorable v), []) := by
  refine ⟨?_, restoreArgs_eq_map r args, ?_⟩
  · rw [exposeMainApi_of_new s api hnew]
    exact List.mem_append_right _
      (List.mem_map.mpr ⟨name, registerMethods_mem_of_prop hmem hpub hctor, rfl⟩)
  · simp only [mainApiHandler, restoreArgs_eq_map, hok]

/-- Witness for C6: a concrete method echoing its decoded arguments. -/
theorem exposeMainApi_handler_success_witness :
    toIpcName "Greeter" "hello" ∈
      (exposeMainApi ⟨[], [], false⟩
        ⟨"Greeter", [("hello", ApiProperty.method (fun as => .ok (.arr as)))]⟩).handlers ∧
    restoreArgs (fun _ _ => none) [.str "Ada"] =
      [.str "Ada"].map (restoreValue (fun _ _ => none)) ∧
    mainApiHandler (fun _ _ => none) true (fun as => .ok (.arr as)) [.str "Ada"] =
      (.reply (makeRestorable (.arr [.str "Ada"])), []) :=
  exposeMainApi_handler_success ⟨[], [], false⟩
    ⟨"Greeter", [("hello", ApiProperty.method (fun as => .ok (.arr as)))]⟩
    (fun _ _ => none) true "hello" (fun as => .ok (.arr as)) [.str "Ada"]
    (.arr [.str "Ada"]) (List.mem_cons_self _ _) rfl (by decide) rfl rfl

/-- C1: For an exposed-method invocation that throws: a thrown
`RelayedError` makes the handler return a successful channel reply
carrying the encoded payload in the relayed-error envelope, with nothing
logged; the envelope is recognized on the caller side, whose proxy call
rejects with the original payload (for a restorer that restores it). A
thrown value that is not a `RelayedError` is passed to the process-wide
error logger exactly once when a logger is registered (not at all
otherwise), and is re-thrown, producing a transport-level call failure
observable by the caller. -/
theorem mainApiHandler_relay_vs_fault (r : RestorerFn) (lg : Bool)
    (f : List Value → MethodOutcome) (args : List Value) :
    (∀ p, f (restoreArgs r args) = .throwRelayed p →
      mainApiHandler r lg f args = (.reply (makeReturnedError p), []) ∧
      isReturnedError (makeReturnedError p) = true ∧
      ∀ r2 : RestorerFn, restoreValue r2 (makeRestorable p) = p →
        decodeReply r2 (makeReturnedError p) = .error p) ∧
    (∀ e, f (restoreArgs r args) = .throwPlain e →
      mainApiHandler r lg f args = (.thrown e, if lg then [e] else [])) := by
  constructor
  · intro p hp
    refine ⟨by simp only [mainApiHandler, hp],
      by simp [isReturnedError, makeReturnedError], ?_⟩
    intro r2 hr2
    simp only [makeReturnedError, decodeReply, if_pos rfl, hr2]
    simp
  · intro e he
    simp only [mainApiHandler, he]

/-- Witness for C1: a method throwing `RelayedError("bad")` and a method
throwing a plain error, under a registered logger. -/
theorem mainApiHandler_relay_vs_fault_witness :
    (mainApiHandler (fun _ _ => none) true (fun _ => .throwRelayed (.str "bad")) [] =
      (.reply (makeReturnedError (.str "bad")), []) ∧
     decodeReply canonicalRestorer (makeReturnedError (.str "bad")) =
      .error (.str "bad")) ∧
    mainApiHandler (fun _ _ => none) true (fun _ => .throwPlain (.str "oops")) [] =
      (.thrown (.str "oops"), [.str "oops"]) := by
  refine ⟨?_, ?_⟩
  · have h := (mainApiHandler_relay_vs_fault (fun _ _ => none) true
      (fun _ => .throwRelayed (.str "bad")) []).1 (.str "bad") rfl
    exact ⟨h.1, h.2.2 canonicalRestorer rfl⟩
  · exact (mainApiHandler_relay_vs_fault (fun _ _ => none) true
      (fun _ => .throwPlain (.str "oops")) []).2 (.str "oops") rfl

/-- Schedule in which two bind calls for the same (window, className)
pair start concurrently — both before the registration arrives — after
which each call's retry loop completes its own attempt. Every event is
realizable in the source's cooperative scheduling: a retry fires only
for a call whose previous attempt failed and whose promise is still
pending. -/
def concurrentBindTrace : List BindEvent :=
  [.start 1, .start 2, .regArrives (some ["hello"]), .retry 1, .retry 2]

/-- C2 counterexample: on the concurrent schedule, the two bind calls
for the same pair resolve to two distinct proxy objects — each attempt
builds and caches a fresh proxy without consulting the bound-API table
— and two discovery requests are sent for the pair, contradicting both
parts of the claim. -/
theorem bind_concurrent_distinct_proxies :
    (runBind concurrentBindTrace).requestsSent = 2 ∧
    (runBind concurrentBindTrace).resolutions =
      [(1, ⟨0, ["hello"]⟩), (2, ⟨1, ["hello"]⟩)] ∧
    (⟨0, ["hello"]⟩ : ApiBinding) ≠ (⟨1, ["hello"]⟩ : ApiBinding) := by
  decide

/-- C2 amended: the at-most-one-proxy invariant holds sequentially —
after any schedule in which some bind call for the pair has resolved and
cached its proxy, a later bind call resolves with that identical cached
proxy object and sends no further discovery request; concurrent bind
calls that overlap before any of them resolves may each run discovery
and construct distinct proxy objects, the last one remaining cached. -/
theorem bind_after_cached_identical (es : List BindEvent) (callId : Nat)
    (p : ApiBinding) (h : (runBind es).bound = some p) :
    (runBind (es ++ [.start callId])).resolutions =
      (runBind es).resolutions ++ [(callId, p)] ∧
    (runBind (es ++ [.start callId])).requestsSent =
      (runBind es).requestsSent := by
  have hstep : runBind (es ++ [.start callId]) =
      bindStep (runBind es) (.start callId) := by
    rw [runBind, runBind, List.foldl_append]
    rfl
  rw [hstep]
  simp [bindStep, bindWindowApiCall, h]

/-- Witness for C2's amended claim: a first bind resolves via discovery,
then a second bind returns the identical cached proxy with no further
request. -/
theorem bind_after_cached_identical_witness :
    (runBind ([.start 1, .regArrives (some ["m"]), .retry 1] ++ [.start 2])).resolutions =
      (runBind [.start 1, .regArrives (some ["m"]), .retry 1]).resolutions ++
        [(2, (⟨0, ["m"]⟩ : ApiBinding))] ∧
    (runBind ([.start 1, .regArrives (some ["m"]), .retry 1] ++ [.start 2])).requestsSent =
      (runBind [.start 1, .regArrives (some ["m"]), .retry 1]).requestsSent :=
  bind_after_cached_identical _ 2 _ rfl

/-- A retry loop whose attempt keeps failing rejects immediately at any
check occurring at or after the timeout. -/
theorem retryUntilTimeout_rejects_now (t r : Nat) (attempt : Nat → Bool)
    (msg : String) (hfail : ∀ e, attempt e = false) :
    ∀ (n e : Nat), 1 ≤ n → t ≤ e →
      retryUntilTimeout n e t r attempt msg = .rejected e msg := by
  intro n e hn he
  match n, hn with
  | m + 1, _ =>
      simp only [retryUntilTimeout, hfail e, Bool.false_eq_true, if_false]
      rw [if_pos he]

/-- A retry loop whose attempt keeps failing, entered before the
timeout with enough fuel, rejects at an elapsed time within one retry
interval past the timeout. -/
theorem retryUntilTimeout_rejects_in_window (t r : Nat) (attempt : Nat → Bool)
    (msg : String) (hr : 0 < r) (hfail : ∀ e, attempt e = false) :
    ∀ (fuel e : Nat), e < t → t + r ≤ e + fuel * r →
      ∃ T, retryUntilTimeout fuel e t r attempt msg = .rejected T msg ∧
        t ≤ T ∧ T < t + r := by
  intro fuel
  induction fuel with
  | zero =>
      intro e h1 h2
      rw [Nat.zero_mul] at h2
      omega
  | succ n ih =>
      intro e h1 h2
      rw [show e + (n + 1) * r = (e + r) + n * r from by ring] at h2
      have hstep : retryUntilTimeout (n + 1) e t r attempt msg =
          retryUntilTimeout n (e + r) t r attempt msg := by
        simp only [retryUntilTimeout, hfail e, Bool.false_eq_true, if_false]
        rw [if_neg (by omega : ¬ t ≤ e)]
      rw [hstep]
      by_cases hc : t ≤ e + r
      · cases n with
        | zero =>
            rw [Nat.zero_mul] at h2
            omega
        | succ m =>
            exact ⟨e + r, retryUntilTimeout_rejects_now t r attempt msg hfail
              (m + 1) (e + r) (Nat.succ_le_succ (Nat.zero_le m)) hc, hc, by omega⟩
      · exact ih (e + r) (by omega) (by omega)

/-- C3: If no registration for the requested class ever arrives (every
attempt of the retry loop fails), the bind operation rejects with the
descriptive timeout message of `bindWindowApi` — which names both the
class and the window — at an elapsed time `T` satisfying
`timeout ≤ T < timeout + retryInterval`: no earlier than the configured
timeout and less than one retry interval late. -/
theorem bindWindowApi_timeout (fuel timeoutMillis retryMillis : Nat)
    (attempt : Nat → Bool) (apiClassName : String) (windowID : Nat)
    (hr : 0 < retryMillis) (ht : 0 < timeoutMillis)
    (hfuel : timeoutMillis + retryMillis ≤ fuel * retryMillis)
    (hfail : ∀ e, attempt e = false) :
    (∃ T, retryUntilTimeout fuel 0 timeoutMillis retryMillis attempt
        (bindTimeoutMessage apiClassName windowID) =
        .rejected T (bindTimeoutMessage apiClassName windowID) ∧
      timeoutMillis ≤ T ∧ T < timeoutMillis + retryMillis) ∧
    (∃ a b, bindTimeoutMessage apiClassName windowID =
      a ++ apiClassName ++ b) ∧
    (∃ c d, bindTimeoutMessage apiClassName windowID =
      c ++ toString windowID ++ d) := by
  refine ⟨?_, ?_, ?_⟩
  · exact retryUntilTimeout_rejects_in_window timeoutMillis retryMillis attempt
      (bindTimeoutMessage apiClassName windowID) hr hfail fuel 0 ht
      (by simpa using hfuel)
  · exact ⟨"Main timed out waiting to bind to window API '",
      "' (window ID " ++ toString windowID ++ ")",
      by simp [bindTimeoutMessage, String.append_assoc]⟩
  · exact ⟨"Main timed out waiting to bind to window API '" ++
      apiClassName ++ "' (window ID ", ")",
      by simp [bindTimeoutMessage, String.append_assoc]⟩

/-- Witness for C3: timeout 300ms, retry interval 50ms, no registration
ever; the rejection lands in the window [300, 350). -/
theorem bindWindowApi_timeout_witness :
    (∃ T, retryUntilTimeout 12 0 300 50 (fun _ => false)
        (bindTimeoutMessage "Greeter" 1) =
        .rejected T (bindTimeoutMessage "Greeter" 1) ∧
      300 ≤ T ∧ T < 300 + 50) ∧
    (∃ a b, bindTimeoutMessage "Greeter" 1 = a ++ "Greeter" ++ b) ∧
    (∃ c d, bindTimeoutMessage "Greeter" 1 = c ++ toString 1 ++ d) :=
  bindWindowApi_timeout 12 300 50 (fun _ => false) "Greeter" 1
    (by decide) (by decide) (by decide) (fun _ => rfl)

end IpcMethods
